import Mathlib

/-!
# Verification of the expense-tracker analytics pipeline

A shallow embedding of the cache-coherent analytics pipeline of the
expense-tracker repository: the RabbitMQ consume loop (`config/rabbitmq.js`),
the Redis-backed cache coordinator (`services/cacheService.js`,
route-level invalidation in `routes/expenses.js`), the
not-started/processing/completed progress tracker
(`routes/analytics.js`), the trend-analysis engine
(`services/analyticsService.js`, function `analyzeSpendingPatterns`) and the
summary aggregations (`routes/expenses.js`, `routes/analytics.js`,
`services/analyticsService.js`).

JavaScript numbers are modelled as exact rationals (`ℚ`); Mongo aggregation
output is modelled as the ordered list of rows the pipeline receives; Redis
is modelled as explicit key-value state threaded through the operations.
-/

namespace ExpenseTracker

/-! ## Job queue delivery (config/rabbitmq.js)

`consumeFromQueue(queueName, callback)` registers a per-message callback:

```js
return channel.consume(queueName, (msg) => {
  if (msg) {
    const data = JSON.parse(msg.content.toString());
    callback(data);
    channel.ack(msg);
  }
});
```

`callback(data)` is not awaited: when the registered handler is an `async`
function (as in `workers/analyticsWorker.js` and the email worker), the call
returns a promise immediately and any failure of the job surfaces only as a
later rejection of that promise; `channel.ack(msg)` on the next line runs
unconditionally.  Only a *synchronous* throw during the call itself (possible
for a plain, non-`async` callback) would skip the `ack` line. -/

/-- Job descriptors published to the analytics queue
(`routes/expenses.js`, `routes/analytics.js`). -/
inductive AnalyticsJobType
  /-- `"NEW_EXPENSE"` -/
  | newExpense
  /-- `"UPDATE_EXPENSE"` -/
  | updateExpense
  /-- `"DELETE_EXPENSE"` -/
  | deleteExpense
  /-- `"CALCULATE_PATTERNS"` -/
  | calculatePatterns
deriving DecidableEq

/-- A message on the analytics queue: a job type plus the `userId` payload
field (the expense id carried by some job types plays no role in handling). -/
structure AnalyticsJob where
  jtype : AnalyticsJobType
  userId : String
deriving DecidableEq

/-- The synchronous behaviour of the JS call `callback(data)`:
either the call itself throws (a plain function raising before returning),
or the call returns a promise that later settles with the given outcome
(the only possibility for an `async` handler). -/
inductive CallBehavior where
  /-- the call `callback(data)` throws synchronously -/
  | syncThrow (err : String)
  /-- the call returns; the handler's processing later succeeds or fails -/
  | returnsPromise (outcome : Except String Unit)

/-- What one delivery of a message leaves behind: whether `channel.ack(msg)`
executed, and how the handler's processing of the job eventually ended. -/
structure DeliveryResult where
  acked : Bool
  handlerOutcome : Except String Unit

/-- The body of the consume callback in `consumeFromQueue`
(config/rabbitmq.js lines 202-208) for one delivered, parseable message:
invoke the handler, then `channel.ack(msg)`.  The ack is reached exactly
when the call `callback(data)` returns (i.e. does not throw synchronously);
the eventual outcome of the handler's processing is not consulted. -/
def consumeBody (behavior : CallBehavior) : DeliveryResult :=
  match behavior with
  | .syncThrow e => { acked := false, handlerOutcome := .error e }
  | .returnsPromise o => { acked := true, handlerOutcome := o }

/-- An `async` JavaScript handler (such as the analytics worker's handler in
`workers/analyticsWorker.js`) never throws synchronously: invoking it always
returns a promise that settles with the handler's outcome. -/
def asyncHandler (handler : AnalyticsJob → Except String Unit) (j : AnalyticsJob) :
    CallBehavior :=
  .returnsPromise (handler j)

/-- Delivering one job of the queue to an `async` handler, as
`consumeFromQueue` does for the registered workers. -/
def deliverToAsyncHandler (handler : AnalyticsJob → Except String Unit)
    (j : AnalyticsJob) : DeliveryResult :=
  consumeBody (asyncHandler handler j)

/-- C1 counterexample helper: a handler whose processing of every job fails. -/
def failingHandler : AnalyticsJob → Except String Unit :=
  fun _ => .error "processing failure"

/-! ## Trend analysis engine (services/analyticsService.js, `analyzeSpendingPatterns`)

The engine is a pure computation over the rows returned by the Mongo
aggregation (per-year, per-month, per-category totals over the six-month
window, sorted by year then month).  JavaScript numbers are modelled as `ℚ`. -/

/-- Trend classification values produced by `analyzeSpendingPatterns`
(the source uses the strings `"increasing"`, `"decreasing"`, `"stable"`,
`"insufficient data"`). -/
inductive Trend
  | increasing
  | decreasing
  | stable
  | insufficientData
deriving DecidableEq

/-- `recentMonths`: the JS slice `data.slice(-3)` — the at most 3 most recent
entries of the per-month series. -/
def recentMonths (data : List ℚ) : List ℚ :=
  data.drop (data.length - 3)

/-- `previousMonths`: the JS slice `data.slice(-6, -3)` — the at most 3
entries immediately before the recent window. -/
def previousMonths (data : List ℚ) : List ℚ :=
  (data.drop (data.length - 6)).take ((data.length - 3) - (data.length - 6))

/-- Average of a list of amounts, `xs.reduce((s, m) => s + m, 0) / xs.length`
(in `ℚ`, division by zero yields zero; the source never divides an empty
window because emptiness is checked first). -/
def avgQ (xs : List ℚ) : ℚ :=
  xs.sum / (xs.length : ℚ)

/-- Per-category result fields computed by the trend loop. -/
structure TrendCalc where
  trend : Trend
  percentageChange : ℚ
  averageMonthly : ℚ
deriving DecidableEq

/-- The per-category trend computation of `analyzeSpendingPatterns`
(services/analyticsService.js, the `Object.values(categoryTrends).forEach`
body, source lines 525-578), as a function of the category's per-month
amount series:

* fewer than 2 months → `"insufficient data"`, change 0, average over
  `Math.max(1, data.length)` months;
* otherwise compute `averageMonthly`, split the series into
  `data.slice(-3)` and `data.slice(-6, -3)`; an empty previous window →
  `"insufficient data"`, change 0;
* `previousAvg === 0`: `recentAvg === 0` → stable/0, else increasing/100;
* otherwise `percentageChange = (recentAvg - previousAvg)/previousAvg * 100`,
  classified `> 10` increasing, `< -10` decreasing, else stable. -/
def trendStats (data : List ℚ) : TrendCalc :=
  if data.length < 2 then
    { trend := .insufficientData
      percentageChange := 0
      averageMonthly := data.sum / ((max 1 data.length : ℕ) : ℚ) }
  else
    let averageMonthly := data.sum / (data.length : ℚ)
    let recent := recentMonths data
    let previous := previousMonths data
    if previous.length = 0 then
      { trend := .insufficientData, percentageChange := 0, averageMonthly }
    else
      let recentAvg := avgQ recent
      let previousAvg := avgQ previous
      if previousAvg = 0 then
        if recentAvg = 0 then
          { trend := .stable, percentageChange := 0, averageMonthly }
        else
          { trend := .increasing, percentageChange := 100, averageMonthly }
      else
        let pc := (recentAvg - previousAvg) / previousAvg * 100
        { trend := if pc > 10 then .increasing
                   else if pc < -10 then .decreasing
                   else .stable
          percentageChange := pc
          averageMonthly }

/-- The classification rule exactly as the specification words it (spec §4.4
steps 4-5), as a function of the two window averages.  Compared against the
source-derived `trendStats` in the C2 theorem. -/
def classifySpec (recentAvg previousAvg : ℚ) : Trend × ℚ :=
  if previousAvg = 0 then
    if recentAvg = 0 then (.stable, 0) else (.increasing, 100)
  else
    let pc := (recentAvg - previousAvg) / previousAvg * 100
    (if pc > 10 then .increasing
     else if pc < -10 then .decreasing
     else .stable, pc)

/-! ## The full `analyzeSpendingPatterns` pipeline

Input: the rows of the Mongo aggregation grouping the user's last-six-months
expenses by `{year, month, category}` with `total = $sum(amount)`, sorted by
year then month (`$sort: {"_id.year": 1, "_id.month": 1}`).  The JS locals of
`analyzeSpendingPatterns` are modelled as top-level functions of the row
list. -/

/-- One output row of the `monthlyCategorySpending` aggregation. -/
structure AggRow where
  year : ℤ
  month : ℤ
  category : String
  total : ℚ
deriving DecidableEq

/-- One entry of the JS object `monthlyData`: a month with its
insertion-ordered `categories` object (category name ↦ total). -/
structure MonthEntry where
  year : ℤ
  month : ℤ
  cats : List (String × ℚ)
deriving DecidableEq

/-- JS object-property assignment `obj[c] = v`: overwrite in place if the key
exists, else append (JS string keys keep insertion order). -/
def setCat : List (String × ℚ) → String → ℚ → List (String × ℚ)
  | [], c, v => [(c, v)]
  | (c', v') :: rest, c, v =>
    if c' = c then (c, v) :: rest else (c', v') :: setCat rest c v

/-- Fold one aggregation row into `monthlyData`.  The JS object is keyed by
the string `` `${year}-${month}` ``, which is injective on the
`$year`/`$month` values (positive year, month 1-12), so matching on the
`(year, month)` pair is equivalent. -/
def addRow (md : List MonthEntry) (r : AggRow) : List MonthEntry :=
  match md with
  | [] => [⟨r.year, r.month, [(r.category, r.total)]⟩]
  | m :: rest =>
    if m.year = r.year ∧ m.month = r.month then
      ⟨m.year, m.month, setCat m.cats r.category r.total⟩ :: rest
    else
      m :: addRow rest r

/-- The JS object `monthlyData` built by iterating
`monthlyCategorySpending.forEach`, in key-insertion order. -/
def buildMonthlyData (rows : List AggRow) : List MonthEntry :=
  rows.foldl addRow []

/-- The comparator of `sortedMonthlyData`:
`if (a.year !== b.year) return a.year - b.year; return a.month - b.month`
(ascending by year, then month).  `monthPrec a b` holds when `a` may be
placed before `b`. -/
def monthPrec (a b : MonthEntry) : Prop :=
  a.year < b.year ∨ (a.year = b.year ∧ a.month ≤ b.month)

instance : DecidableRel monthPrec := fun a b => by
  unfold monthPrec; infer_instance

/-- `sortedMonthlyData`: `Object.values(monthlyData)` (insertion order)
sorted ascending by year then month; JS `Array.prototype.sort` is stable,
modelled by insertion sort. -/
def sortedMonths (rows : List AggRow) : List MonthEntry :=
  (buildMonthlyData rows).insertionSort monthPrec

/-- `allCategories`: a JS `Set` filled by walking `sortedMonthlyData` and
each month's category keys; iteration order is insertion order. -/
def collectCats (months : List MonthEntry) : List String :=
  months.foldl
    (fun acc m => m.cats.foldl (fun a p => if p.1 ∈ a then a else a ++ [p.1]) acc)
    []

/-- One element of a category's `data` array: `{year, month, amount}`. -/
structure MonthAmount where
  year : ℤ
  month : ℤ
  amount : ℚ
deriving DecidableEq

/-- One entry of `categoryTrends` (the per-category analysis record). -/
structure CatTrend where
  category : String
  trend : Trend
  percentageChange : ℚ
  averageMonthly : ℚ
  data : List MonthAmount
deriving DecidableEq

/-- The per-category `data` array: for each month of `sortedMonthlyData`, the
category's total or `0` (`month.categories[category] || 0`). -/
def catAmounts (months : List MonthEntry) (c : String) : List MonthAmount :=
  months.map fun m => ⟨m.year, m.month, (m.cats.lookup c).getD 0⟩

/-- The finished `categoryTrends[category]` record for one category. -/
def computeCatTrend (months : List MonthEntry) (c : String) : CatTrend :=
  let d := catAmounts months c
  let ts := trendStats (d.map (·.amount))
  ⟨c, ts.trend, ts.percentageChange, ts.averageMonthly, d⟩

/-- `Object.values(categoryTrends)`: one record per category, in
`allCategories` insertion order. -/
def catTrendsOf (rows : List AggRow) : List CatTrend :=
  (collectCats (sortedMonths rows)).map (computeCatTrend (sortedMonths rows))

/-- The comparator of `sortedByChange`:
`(a, b) => b.percentageChange - a.percentageChange` (descending).
`pcPrec a b` holds when `a` may be placed before `b`. -/
def pcPrec (a b : CatTrend) : Prop :=
  b.percentageChange ≤ a.percentageChange

instance : DecidableRel pcPrec := fun a b => by
  unfold pcPrec; infer_instance

/-- `sortedByChange`: the non-`insufficient data` category trends sorted by
`percentageChange` descending (stable). -/
def sortedByChangeOf (rows : List AggRow) : List CatTrend :=
  ((catTrendsOf rows).filter fun t => decide (t.trend ≠ Trend.insufficientData)).insertionSort
    pcPrec

/-- `increasingCategories`: the increasing trends of `sortedByChange`,
first 3. -/
def increasingCategoriesOf (rows : List AggRow) : List CatTrend :=
  ((sortedByChangeOf rows).filter fun t => decide (t.trend = Trend.increasing)).take 3

/-- `decreasingCategories`: the decreasing trends of `sortedByChange`,
first 3. -/
def decreasingCategoriesOf (rows : List AggRow) : List CatTrend :=
  ((sortedByChangeOf rows).filter fun t => decide (t.trend = Trend.decreasing)).take 3

/-- One entry of `totalsByMonth`: the month's grand total
`Object.values(month.categories).reduce((s, a) => s + a, 0)`. -/
structure MonthTotal where
  year : ℤ
  month : ℤ
  total : ℚ
deriving DecidableEq

/-- `totalsByMonth`: per-month grand totals, in `sortedMonthlyData` order. -/
def totalsByMonthOf (rows : List AggRow) : List MonthTotal :=
  (sortedMonths rows).map fun m => ⟨m.year, m.month, (m.cats.map (·.2)).sum⟩

/-- The overall-trend computation of `analyzeSpendingPatterns` (source lines
605-631) on the list of per-month grand totals: defaults
`overallTrend = "stable"`, `overallPercentageChange = 0`; only when there are
at least 2 months, the previous window is non-empty **and `previousAvg > 0`**
does it compute the percentage change and reclassify. -/
def overallCalc (totals : List ℚ) : Trend × ℚ :=
  if 2 ≤ totals.length then
    let recent := recentMonths totals
    let previous := previousMonths totals
    if 0 < previous.length then
      let recentAvg := avgQ recent
      let previousAvg := avgQ previous
      if 0 < previousAvg then
        let pc := (recentAvg - previousAvg) / previousAvg * 100
        (if pc > 10 then .increasing
         else if pc < -10 then .decreasing
         else .stable, pc)
      else (.stable, 0)
    else (.stable, 0)
  else (.stable, 0)

/-- `(overallTrend, overallPercentageChange)` for a row list. -/
def overallOf (rows : List AggRow) : Trend × ℚ :=
  overallCalc ((totalsByMonthOf rows).map (·.total))

/-- The `type` tag of an insight entry. -/
inductive InsightType
  | overall
  | increasing
  | decreasing
deriving DecidableEq

/-- One entry of `insights`.  The human-readable `message` is a fixed
template over `(type, category, percentageChange)`; those determining fields
are the model. -/
structure Insight where
  itype : InsightType
  category : Option String
  change : ℚ
deriving DecidableEq

/-- The `insights` list: the overall-trend entry, then one entry per
increasing category, then one per decreasing category (the source's
`if (...).length > 0` guards around the `forEach` pushes are no-ops for
empty lists). -/
def insightsOf (rows : List AggRow) : List Insight :=
  ⟨.overall, none, (overallOf rows).2⟩ ::
    (((increasingCategoriesOf rows).map fun c => ⟨.increasing, some c.category, c.percentageChange⟩)
      ++ ((decreasingCategoriesOf rows).map fun c => ⟨.decreasing, some c.category, c.percentageChange⟩))

/-- The pure part of the `result` object of `analyzeSpendingPatterns`. -/
structure AnalysisResult where
  overallTrend : Trend
  overallPercentageChange : ℚ
  categoryTrends : List CatTrend
  monthlyTotals : List MonthTotal
  insights : List Insight
  hasEnoughData : Bool
deriving DecidableEq

/-- `analyzeSpendingPatterns` as a pure function of the aggregation rows
(everything in the `result` object except `userId`, `userName` and
`analysisDate`). -/
def analyzeCore (rows : List AggRow) : AnalysisResult :=
  { overallTrend := (overallOf rows).1
    overallPercentageChange := (overallOf rows).2
    categoryTrends := catTrendsOf rows
    monthlyTotals := totalsByMonthOf rows
    insights := insightsOf rows
    hasEnoughData := decide (3 ≤ (sortedMonths rows).length) }

/-! ## Progress tracker and result cache
(services/cacheService.js, routes/analytics.js) -/

/-- The full `result` object stored by `analyzeSpendingPatterns`
(`userId`, `userName`, `analysisDate: new Date()`, and the analysis
fields). -/
structure StoredPatterns where
  userId : String
  userName : String
  analysisDate : ℤ
  overallTrend : Trend
  overallPercentageChange : ℚ
  categoryTrends : List CatTrend
  monthlyTotals : List MonthTotal
  insights : List Insight
  hasEnoughData : Bool
deriving DecidableEq

/-- Building the `result` object at wall-clock instant `now`. -/
def mkStoredPatterns (uid uname : String) (now : ℤ) (rows : List AggRow) :
    StoredPatterns :=
  let r := analyzeCore rows
  { userId := uid, userName := uname, analysisDate := now
    overallTrend := r.overallTrend
    overallPercentageChange := r.overallPercentageChange
    categoryTrends := r.categoryTrends
    monthlyTotals := r.monthlyTotals
    insights := r.insights
    hasEnoughData := r.hasEnoughData }

/-- The `TrendResult` of the data model: `{categoryTrends, overallTrend,
overallPercentageChange, insights, monthlyTotals}` (no timestamp). -/
structure TrendResult where
  categoryTrends : List CatTrend
  overallTrend : Trend
  overallPercentageChange : ℚ
  insights : List Insight
  monthlyTotals : List MonthTotal
deriving DecidableEq

/-- Projecting the stored result object onto its `TrendResult`. -/
def trendResultOf (p : StoredPatterns) : TrendResult :=
  { categoryTrends := p.categoryTrends
    overallTrend := p.overallTrend
    overallPercentageChange := p.overallPercentageChange
    insights := p.insights
    monthlyTotals := p.monthlyTotals }

/-- The Redis keys owned by the pattern-analysis feature for one user
(`spending_patterns:{u}` and `spending_patterns_processing:{u}`), each
holding its value together with the TTL (seconds) it was set with, plus the
analytics queue the routes publish to. -/
structure PatternCache where
  resultEntry : Option (StoredPatterns × ℕ)
  processingMarker : Option (String × ℕ)
  analyticsQueue : List AnalyticsJob

/-- `markSpendingPatternsProcessing` (cacheService.js):
`set(spending_patterns_processing:{u}, "true", EX 300)`. -/
def markSpendingPatternsProcessing (s : PatternCache) : PatternCache :=
  { s with processingMarker := some ("true", 300) }

/-- `storeSpendingPatterns` (cacheService.js lines 106-121):
`set(spending_patterns:{u}, json, EX 86400)` then
`del(spending_patterns_processing:{u})` — one function call, two sequential
cache writes with no other step between them. -/
def storeSpendingPatterns (d : StoredPatterns) (s : PatternCache) : PatternCache :=
  { s with resultEntry := some (d, 86400), processingMarker := none }

/-- `GET /api/analytics/patterns` (routes/analytics.js lines 112-142): on a
cache hit return the cached result unchanged; on a miss publish a
`CALCULATE_PATTERNS` job and answer "queued".  The route never touches the
processing marker.  The boolean records whether the cache hit. -/
def getPatternsRoute (u : String) (s : PatternCache) : PatternCache × Bool :=
  match s.resultEntry with
  | some _ => (s, true)
  | none =>
    ({ s with analyticsQueue := s.analyticsQueue ++ [⟨.calculatePatterns, u⟩] }, false)

/-- JS truthiness of a string fetched from Redis (`null` and `""` are falsy). -/
def jsTruthy (v : Option (String × ℕ)) : Bool :=
  match v with
  | none => false
  | some (str, _) => decide (str ≠ "")

/-- Response states of `GET /api/analytics/patterns/status`. -/
inductive PatternStatus
  /-- `{status: "completed", data}` -/
  | completed (data : StoredPatterns)
  /-- `{status: "processing"}` -/
  | processing
  /-- `{status: "not_started"}` -/
  | notStarted
deriving DecidableEq

/-- `GET /api/analytics/patterns/status` (routes/analytics.js lines
147-183): return `completed` with the cached payload if
`spending_patterns:{u}` exists, else `processing` if
`spending_patterns_processing:{u}` is truthy, else `not_started`. -/
def patternsStatusRoute (s : PatternCache) : PatternStatus :=
  match s.resultEntry with
  | some (d, _) => .completed d
  | none => if jsTruthy s.processingMarker then .processing else .notStarted

/-- `analyzeSpendingPatterns` as a state transformer: mark processing, run
the pure analysis on the aggregation rows, store the result (which also
clears the marker).  Returns the new cache state and the stored result. -/
def analyzeSpendingPatternsRun (uid uname : String) (now : ℤ) (rows : List AggRow)
    (s : PatternCache) : PatternCache × StoredPatterns :=
  let s1 := markSpendingPatternsProcessing s
  let res := mkStoredPatterns uid uname now rows
  (storeSpendingPatterns res s1, res)

/-! ## Summary-cache invalidation
(services/cacheService.js `invalidateUserSummaries`, routes/expenses.js
`invalidateMonthlyCache`, workers/analyticsWorker.js dispatch) -/

/-- The monthly/analytics summary keys of the Redis cache, as a partial map
from key to stored JSON blob. -/
def SummaryCache := String → Option String

/-- The fixed stem of the `monthly_summary:{userId}:*` key pattern. -/
def monthlySummaryKeyspace (u : String) : String :=
  "monthly_summary:" ++ u ++ ":"

/-- The `analytics_summary:{userId}` key. -/
def analyticsSummaryKey (u : String) : String :=
  "analytics_summary:" ++ u

/-- Whether key `k` matches the Redis glob `monthly_summary:{u}:*`:
`*` matches any (possibly empty) suffix, so the glob matches exactly the
keys extending the fixed stem (`userId` values are Mongo object-id strings
without glob metacharacters). -/
def keyInMonthlyKeyspace (u k : String) : Bool :=
  (monthlySummaryKeyspace u).data.isPrefixOf k.data

/-- `invalidateUserSummaries(userId)` (cacheService.js lines 63-97):
`DEL` every key returned by `KEYS monthly_summary:{u}:*`, then
`DEL analytics_summary:{u}`.  This models the successful path (cache
reachable); the JS `catch` path logs, deletes nothing and returns `false`. -/
def invalidateUserSummariesKV (u : String) (c : SummaryCache) : SummaryCache :=
  fun k =>
    if keyInMonthlyKeyspace u k then none
    else if k = analyticsSummaryKey u then none
    else c k

/-- `invalidateMonthlyCache(userId)` (routes/expenses.js lines 13-20), the
route-side helper run synchronously inside the mutating request: it deletes
only the `monthly_summary:{u}:*` keys (not the analytics summary). -/
def invalidateMonthlyCacheKV (u : String) (c : SummaryCache) : SummaryCache :=
  fun k =>
    if keyInMonthlyKeyspace u k then none
    else c k

/-- Whether a job type is one of the three mutation events. -/
def isMutationJob (t : AnalyticsJobType) : Bool :=
  match t with
  | .newExpense | .updateExpense | .deleteExpense => true
  | .calculatePatterns => false

/-- The analytics worker's dispatch (workers/analyticsWorker.js lines
34-63) restricted to its effect on the summary-cache keys:
`NEW_EXPENSE`/`UPDATE_EXPENSE`/`DELETE_EXPENSE` run
`invalidateUserSummaries(data.userId)`; `CALCULATE_PATTERNS` only writes in
the separate `spending_patterns` namespace (modelled by `PatternCache`). -/
def processAnalyticsJobKV (j : AnalyticsJob) (c : SummaryCache) : SummaryCache :=
  match j.jtype with
  | .newExpense | .updateExpense | .deleteExpense => invalidateUserSummariesKV j.userId c
  | .calculatePatterns => c

/-! ## Summary aggregations
(routes/expenses.js `GET /summary/monthly`, routes/analytics.js
`GET /summary`, services/analyticsService.js `generateOverallSummary`) -/

/-- One expense document as the aggregations see it (only the fields the
summaries read). -/
structure ExpRow where
  category : String
  amount : ℚ
deriving DecidableEq

/-- One output row of the group-by-category aggregation
`{_id: category, total: $sum(amount), count: $sum(1)}` (the analytics
variants do not project `count`; computing it is harmless). -/
structure CatAgg where
  category : String
  total : ℚ
  count : ℕ
deriving DecidableEq

/-- Fold one expense into the running group-by-category result (groups kept
in first-appearance order; `$group` emits one row per distinct category). -/
def addToGroup (acc : List CatAgg) (r : ExpRow) : List CatAgg :=
  match acc with
  | [] => [⟨r.category, r.amount, 1⟩]
  | g :: rest =>
    if g.category = r.category then
      ⟨g.category, g.total + r.amount, g.count + 1⟩ :: rest
    else
      g :: addToGroup rest r

/-- The `$group: {_id: "$category", total: {$sum: "$amount"}, ...}` stage
over the matched expense rows. -/
def groupByCategory (rows : List ExpRow) : List CatAgg :=
  rows.foldl addToGroup []

/-- The `$sort: {total: -1}` comparator: `a` may precede `b` when
`b.total ≤ a.total`. -/
def totPrec (a b : CatAgg) : Prop :=
  b.total ≤ a.total

instance : DecidableRel totPrec := fun a b => by
  unfold totPrec; infer_instance

/-- One entry of the monthly summary's `categories` array. -/
structure CatSummary where
  category : String
  total : ℚ
  count : ℕ
  percentage : ℚ
deriving DecidableEq

/-- The monthly summary response object. -/
structure MonthlySummary where
  month : String
  year : String
  totalAmount : ℚ
  categories : List CatSummary
deriving DecidableEq

/-- `GET /api/expenses/summary/monthly` (routes/expenses.js lines 239-270),
from the rows matched for the user and month: group by category, sort by
total descending, `totalAmount = summary.reduce((acc, curr) => acc +
curr.total, 0)`, and a per-category `percentage = total / totalAmount *
100` mapped over exactly the aggregation's rows. -/
def monthlySummaryCalc (month year : String) (rows : List ExpRow) : MonthlySummary :=
  let summary := (groupByCategory rows).insertionSort totPrec
  let totalAmount := summary.foldl (fun acc curr => acc + curr.total) 0
  { month, year, totalAmount
    categories := summary.map fun i =>
      ⟨i.category, i.total, i.count, i.total / totalAmount * 100⟩ }

/-- One entry of `categoryBreakdown` in the analytics/overall summaries. -/
structure CatPct where
  category : String
  total : ℚ
  percentage : ℚ
deriving DecidableEq

/-- The analytics summary / overall summary response (the
`monthlySpending` presentation list is independent of the division under
scrutiny and is omitted from this record's claims). -/
structure OverallSummary where
  totalSpent : ℚ
  categoryBreakdown : List CatPct
deriving DecidableEq

/-- `GET /api/analytics/summary` (routes/analytics.js lines 27-97), from the
user's matched expense rows: `totalSpent` is the `$group: {_id: null}` sum
(`0` when no row matches, since the group stage then emits no row), and
`categoryBreakdown` maps `percentage = total / totalSpent * 100` over the
group-by-category rows sorted by total descending. -/
def analyticsSummaryCalc (rows : List ExpRow) : OverallSummary :=
  let totalSpent := if rows.length = 0 then 0 else (rows.map (·.amount)).sum
  let categoryBreakdown := (groupByCategory rows).insertionSort totPrec
  { totalSpent
    categoryBreakdown := categoryBreakdown.map fun i =>
      ⟨i.category, i.total, i.total / totalSpent * 100⟩ }

/-- `generateOverallSummary` (services/analyticsService.js lines 248-330):
the same computation as the analytics summary route (the service duplicates
the route's aggregation code verbatim). -/
def generateOverallSummaryCalc (rows : List ExpRow) : OverallSummary :=
  let totalSpent := if rows.length = 0 then 0 else (rows.map (·.amount)).sum
  let categoryBreakdown := (groupByCategory rows).insertionSort totPrec
  { totalSpent
    categoryBreakdown := categoryBreakdown.map fun i =>
      ⟨i.category, i.total, i.total / totalSpent * 100⟩ }

/-- The overall-trend rule as the counterexample forces it to be amended:
the 3-vs-3 percentage comparison applies only when there are at least two
months, the previous window is non-empty *and its average is strictly
positive*; in every other case — including `previousAvg = 0` with
`recentAvg > 0` — the overall trend stays `stable` at `0%`. -/
def specOverallAmended (totals : List ℚ) : Trend × ℚ :=
  if 2 ≤ totals.length ∧ previousMonths totals ≠ [] ∧ 0 < avgQ (previousMonths totals) then
    let pc := (avgQ (recentMonths totals) - avgQ (previousMonths totals))
      / avgQ (previousMonths totals) * 100
    (if pc > 10 then .increasing
     else if pc < -10 then .decreasing
     else .stable, pc)
  else (.stable, 0)

/-- Six aggregation rows whose first three months have grand total `0`
(zero-amount expense documents are storable: the Mongoose schema only
requires `min: 0`) and whose last three total `50`. -/
def rowsC6 : List AggRow :=
  [⟨2024, 1, "food", 0⟩, ⟨2024, 2, "food", 0⟩, ⟨2024, 3, "food", 0⟩,
   ⟨2024, 4, "food", 50⟩, ⟨2024, 5, "food", 50⟩, ⟨2024, 6, "food", 50⟩]

instance : IsTotal CatTrend pcPrec :=
  ⟨fun a b => le_total b.percentageChange a.percentageChange⟩

instance : IsTrans CatTrend pcPrec :=
  ⟨fun _ _ _ hab hbc => le_trans hbc hab⟩

/-- The insight list as the counterexample forces the claim to be amended:
overall entry first, then the top-3 increasing categories by
`percentageChange` descending, then the top-3 *least* decreasing categories,
also by `percentageChange` descending (not ascending), ties in both blocks
keeping the categories' first-appearance order (not category-name order). -/
def amendedInsightsSpec (rows : List AggRow) : List Insight :=
  ⟨.overall, none, (overallOf rows).2⟩ ::
    (((((catTrendsOf rows).filter fun t => decide (t.trend = Trend.increasing)).insertionSort
            pcPrec).take 3).map
        (fun c => ⟨.increasing, some c.category, c.percentageChange⟩)
      ++ ((((catTrendsOf rows).filter fun t => decide (t.trend = Trend.decreasing)).insertionSort
            pcPrec).take 3).map
        (fun c => ⟨.decreasing, some c.category, c.percentageChange⟩))

/-- The claim's ranking for the increasing block: `percentageChange`
descending, ties by category name. -/
def incClaimPrec (a b : CatTrend) : Prop :=
  b.percentageChange < a.percentageChange
    ∨ (a.percentageChange = b.percentageChange ∧ a.category ≤ b.category)

instance : DecidableRel incClaimPrec := fun a b => by
  unfold incClaimPrec; infer_instance

/-- The claim's ranking for the decreasing block: `percentageChange`
ascending, ties by category name. -/
def decClaimPrec (a b : CatTrend) : Prop :=
  a.percentageChange < b.percentageChange
    ∨ (a.percentageChange = b.percentageChange ∧ a.category ≤ b.category)

instance : DecidableRel decClaimPrec := fun a b => by
  unfold decClaimPrec; infer_instance

/-- The insights list exactly as C7 words it: overall entry, then the top-3
increasing categories by `percentageChange` descending, then the top-3
decreasing categories by `percentageChange` ascending, ties broken by
category name. -/
def claimInsightsSpec (rows : List AggRow) : List Insight :=
  ⟨.overall, none, (overallOf rows).2⟩ ::
    (((((catTrendsOf rows).filter fun t => decide (t.trend = Trend.increasing)).insertionSort
            incClaimPrec).take 3).map
        (fun c => ⟨.increasing, some c.category, c.percentageChange⟩)
      ++ ((((catTrendsOf rows).filter fun t => decide (t.trend = Trend.decreasing)).insertionSort
            decClaimPrec).take 3).map
        (fun c => ⟨.decreasing, some c.category, c.percentageChange⟩))

/-- Aggregation rows with two categories that both decrease: food by 20%,
debt by 50%. -/
def rowsC7 : List AggRow :=
  [⟨2024, 1, "food", 100⟩, ⟨2024, 1, "debt", 100⟩,
   ⟨2024, 2, "food", 100⟩, ⟨2024, 2, "debt", 100⟩,
   ⟨2024, 3, "food", 100⟩, ⟨2024, 3, "debt", 100⟩,
   ⟨2024, 4, "food", 80⟩, ⟨2024, 4, "debt", 50⟩,
   ⟨2024, 5, "food", 80⟩, ⟨2024, 5, "debt", 50⟩,
   ⟨2024, 6, "food", 80⟩, ⟨2024, 6, "debt", 50⟩]

/-- The month matrix `analyzeSpendingPatterns` builds from `rowsC7`. -/
def monthsC7 : List MonthEntry :=
  [⟨2024, 1, [("food", 100), ("debt", 100)]⟩, ⟨2024, 2, [("food", 100), ("debt", 100)]⟩,
   ⟨2024, 3, [("food", 100), ("debt", 100)]⟩, ⟨2024, 4, [("food", 80), ("debt", 50)]⟩,
   ⟨2024, 5, [("food", 80), ("debt", 50)]⟩, ⟨2024, 6, [("food", 80), ("debt", 50)]⟩]

/-- Food's per-month series in `rowsC7`. -/
def dataFoodC7 : List MonthAmount :=
  [⟨2024, 1, 100⟩, ⟨2024, 2, 100⟩, ⟨2024, 3, 100⟩, ⟨2024, 4, 80⟩, ⟨2024, 5, 80⟩, ⟨2024, 6, 80⟩]

/-- Debt's per-month series in `rowsC7`. -/
def dataDebtC7 : List MonthAmount :=
  [⟨2024, 1, 100⟩, ⟨2024, 2, 100⟩, ⟨2024, 3, 100⟩, ⟨2024, 4, 50⟩, ⟨2024, 5, 50⟩, ⟨2024, 6, 50⟩]

/-- Food's category-trend record for `rowsC7`: decreasing by 20%. -/
def ctFoodC7 : CatTrend :=
  ⟨"food", .decreasing, -20, 90, dataFoodC7⟩

/-- Debt's category-trend record for `rowsC7`: decreasing by 50%. -/
def ctDebtC7 : CatTrend :=
  ⟨"debt", .decreasing, -50, 75, dataDebtC7⟩

/-! ## Theorems -/

/-- **C1, counterexample.**  A job delivered by `consumeFromQueue` to an
`async` handler that fails during processing is still acknowledged: the claim
"the queue acknowledges and removes the job only when the handler succeeds;
if the handler raises an exception during processing, the message is not
acknowledged" is false on the code. -/
theorem consume_acks_despite_handler_failure :
    (deliverToAsyncHandler failingHandler ⟨.calculatePatterns, "u1"⟩).acked = true ∧
    (deliverToAsyncHandler failingHandler ⟨.calculatePatterns, "u1"⟩).handlerOutcome
      = .error "processing failure" :=
  ⟨rfl, rfl⟩

/-- **C1, amended.**  For every job delivered by `consumeFromQueue` to an
`async` handler, the queue acknowledges and removes the job as soon as the
handler has been invoked, whether or not the handler's processing succeeds;
a handler failure does not prevent the acknowledgement, so the message does
not become eligible for redelivery. -/
theorem consume_always_acks_async (handler : AnalyticsJob → Except String Unit)
    (j : AnalyticsJob) :
    (deliverToAsyncHandler handler j).acked = true ∧
    (deliverToAsyncHandler handler j).handlerOutcome = handler j :=
  ⟨rfl, rfl⟩

/-- A non-empty previous window forces at least 4 entries in the series. -/
theorem previousMonths_ne_nil_length {data : List ℚ}
    (h : previousMonths data ≠ []) : 4 ≤ data.length := by
  by_contra hlt
  apply h
  unfold previousMonths
  have h3 : data.length - 3 = 0 := by omega
  simp [h3]

/-- **C2.**  Every category record produced by the trend analysis carries
exactly the trend and percentage that `trendStats` computes on its per-month
series; and for every series whose previous window is non-empty, that
computation agrees with the specification's classification rule on the
window averages: when `previousAvg ≠ 0`,
`percentageChange = (recentAvg - previousAvg)/previousAvg * 100` classified
`> 10` increasing / `< -10` decreasing / otherwise stable; when
`previousAvg = 0`, stable with `0` if `recentAvg = 0`, else increasing with
the `100` sentinel. -/
theorem category_trend_matches_classification :
    (∀ rows : List AggRow, ∀ ct ∈ (analyzeCore rows).categoryTrends,
        (ct.trend, ct.percentageChange)
          = ((trendStats (ct.data.map (·.amount))).trend,
             (trendStats (ct.data.map (·.amount))).percentageChange))
    ∧ (∀ data : List ℚ, previousMonths data ≠ [] →
        ((trendStats data).trend, (trendStats data).percentageChange)
          = classifySpec (avgQ (recentMonths data)) (avgQ (previousMonths data))) := by
  constructor
  · intro rows ct hct
    have hct' : ct ∈ catTrendsOf rows := hct
    unfold catTrendsOf at hct'
    obtain ⟨c, _, rfl⟩ := List.mem_map.mp hct'
    rfl
  · intro data h
    have h4 := previousMonths_ne_nil_length h
    have hlen : ¬ data.length < 2 := by omega
    have hprev : ¬ (previousMonths data).length = 0 := by
      simpa [List.length_eq_zero] using h
    unfold trendStats classifySpec
    rw [if_neg hlen, if_neg hprev]
    by_cases h0 : avgQ (previousMonths data) = 0
    · by_cases hr : avgQ (recentMonths data) = 0 <;> simp [h0, hr]
    · simp [h0]

/-- **C2, witness.** -/
theorem category_trend_matches_classification_witness :
    ((trendStats [100, 100, 100, 150, 160, 170]).trend,
      (trendStats [100, 100, 100, 150, 160, 170]).percentageChange)
      = classifySpec (avgQ (recentMonths [100, 100, 100, 150, 160, 170]))
          (avgQ (previousMonths [100, 100, 100, 150, 160, 170])) :=
  category_trend_matches_classification.2 [100, 100, 100, 150, 160, 170] (by decide)

/-- **C5.**  The trend window splits the per-month series into the at most 3
most recent months and the at most 3 months immediately before them (the two
slices partition the last six entries of the series; on a six-month series
they partition it into two blocks of 3); an empty previous window yields the
`insufficient data` classification; and the scenario
`[100,100,100,150,160,170]` yields `recentAvg = 160`, `previousAvg = 100`,
`percentageChange = 60` and an increasing trend. -/
theorem trend_window_split :
    (∀ data : List ℚ,
        previousMonths data ++ recentMonths data = data.drop (data.length - 6))
    ∧ (∀ data : List ℚ, data.length = 6 →
        previousMonths data ++ recentMonths data = data
        ∧ (previousMonths data).length = 3 ∧ (recentMonths data).length = 3)
    ∧ (∀ data : List ℚ, previousMonths data = [] →
        (trendStats data).trend = Trend.insufficientData
        ∧ (trendStats data).percentageChange = 0)
    ∧ (recentMonths [100, 100, 100, 150, 160, 170] = [150, 160, 170]
        ∧ previousMonths [100, 100, 100, 150, 160, 170] = [100, 100, 100]
        ∧ avgQ (recentMonths [100, 100, 100, 150, 160, 170]) = 160
        ∧ avgQ (previousMonths [100, 100, 100, 150, 160, 170]) = 100
        ∧ (trendStats [100, 100, 100, 150, 160, 170]).percentageChange = 60
        ∧ (trendStats [100, 100, 100, 150, 160, 170]).trend = Trend.increasing) := by
  have hsplit : ∀ data : List ℚ,
      previousMonths data ++ recentMonths data = data.drop (data.length - 6) := by
    intro data
    unfold previousMonths recentMonths
    conv_rhs => rw [← List.take_append_drop ((data.length - 3) - (data.length - 6))
      (data.drop (data.length - 6))]
    congr 1
    rw [List.drop_drop]
    congr 1
    omega
  refine ⟨hsplit, ?_, ?_, ?_⟩
  · intro data h6
    have h := hsplit data
    rw [h6] at h
    simp at h
    refine ⟨h, ?_, ?_⟩
    · unfold previousMonths
      rw [List.length_take, List.length_drop, h6]
      decide
    · unfold recentMonths
      rw [List.length_drop, h6]
  · intro data h
    unfold trendStats
    by_cases hlen : data.length < 2
    · simp [hlen]
    · simp [hlen, h]
  · refine ⟨by decide, by decide, ?_, ?_, ?_, ?_⟩
    · show avgQ [(150 : ℚ), 160, 170] = 160
      norm_num [avgQ]
    · show avgQ [(100 : ℚ), 100, 100] = 100
      norm_num [avgQ]
    · simp only [trendStats, recentMonths, previousMonths]
      norm_num [avgQ]
    · simp only [trendStats, recentMonths, previousMonths]
      norm_num [avgQ]

/-- **C5, witness.** -/
theorem trend_window_split_witness :
    (trendStats [(5 : ℚ)]).trend = Trend.insufficientData :=
  (trend_window_split.2.2.1 [(5 : ℚ)] (by decide)).1

/-- **C3.**  `status(userId)` returns `completed` with the result payload
whenever the result entry exists — regardless of the processing marker, so
`completed` takes priority when both coexist; with no result entry it
returns `processing` exactly when the lease is present (truthy), and
`not_started` otherwise. -/
theorem patterns_status_contract (s : PatternCache) (d : StoredPatterns) (ttl : ℕ) :
    (s.resultEntry = some (d, ttl) → patternsStatusRoute s = .completed d) ∧
    (s.resultEntry = none → jsTruthy s.processingMarker = true →
      patternsStatusRoute s = .processing) ∧
    (s.resultEntry = none → jsTruthy s.processingMarker = false →
      patternsStatusRoute s = .notStarted) := by
  refine ⟨?_, ?_, ?_⟩ <;> intro h1 <;>
    first
      | (intro h2; unfold patternsStatusRoute; rw [h1]; simp [h2])
      | (unfold patternsStatusRoute; rw [h1])

/-- **C3, witness** — a state where the result entry and a live lease
coexist: status is `completed`. -/
theorem patterns_status_contract_witness :
    patternsStatusRoute
        { resultEntry := some (mkStoredPatterns "u1" "Ada" 0 [], 86400)
          processingMarker := some ("true", 300)
          analyticsQueue := [] }
      = .completed (mkStoredPatterns "u1" "Ada" 0 []) :=
  (patterns_status_contract _ (mkStoredPatterns "u1" "Ada" 0 []) 86400).1 rfl

/-- **C8.**  Replaying the same `ComputeTrends` job over the same
aggregation rows produces an identical `TrendResult`, whatever the
wall-clock time of each run and whatever cache state each run starts from:
the `TrendResult` is a pure function of the aggregate-store state (only the
`analysisDate` timestamp outside the `TrendResult` differs). -/
theorem compute_trends_idempotent (uid uname : String) (t₁ t₂ : ℤ)
    (rows : List AggRow) (s₁ s₂ : PatternCache) :
    trendResultOf (analyzeSpendingPatternsRun uid uname t₁ rows s₁).2
      = trendResultOf (analyzeSpendingPatternsRun uid uname t₂ rows s₂).2 :=
  rfl

/-- **C9, counterexample.**  Initiating a `ComputeTrends` job does *not* set
the processing marker: `GET /patterns` on an empty cache enqueues the
`CALCULATE_PATTERNS` job but leaves the marker absent, so a poll right after
initiation reads `not_started`, not `processing`. -/
theorem initiate_does_not_mark_processing :
    ((getPatternsRoute "u1" ⟨none, none, []⟩).1).analyticsQueue
        = [⟨.calculatePatterns, "u1"⟩] ∧
    ((getPatternsRoute "u1" ⟨none, none, []⟩).1).processingMarker = none ∧
    patternsStatusRoute (getPatternsRoute "u1" ⟨none, none, []⟩).1 = .notStarted :=
  ⟨rfl, rfl, rfl⟩

/-- **C9, amended.**  The `NotStarted → Processing` transition happens when
the worker *starts processing* the `ComputeTrends` job (not when the job is
enqueued: `GET /patterns` leaves the marker unchanged):
`markSpendingPatternsProcessing` sets the marker with the short 300-second
TTL, and on successful completion `storeSpendingPatterns` writes the result
entry (1-day TTL) and deletes the processing marker in the same logical
step; the worker's whole run therefore ends with the result entry present
and the marker absent. -/
theorem processing_marker_lifecycle (u uid uname : String) (now : ℤ)
    (rows : List AggRow) (s : PatternCache) :
    ((getPatternsRoute u s).1).processingMarker = s.processingMarker ∧
    (markSpendingPatternsProcessing s).processingMarker = some ("true", 300) ∧
    (∀ d : StoredPatterns, (storeSpendingPatterns d s).resultEntry = some (d, 86400)
      ∧ (storeSpendingPatterns d s).processingMarker = none) ∧
    ((analyzeSpendingPatternsRun uid uname now rows s).1.resultEntry
        = some ((analyzeSpendingPatternsRun uid uname now rows s).2, 86400)
      ∧ (analyzeSpendingPatternsRun uid uname now rows s).1.processingMarker = none) := by
  refine ⟨?_, rfl, fun d => ⟨rfl, rfl⟩, rfl, rfl⟩
  unfold getPatternsRoute
  cases h : s.resultEntry <;> rfl

/-- **C4.**  After the worker has handled a mutation event (new, update or
delete of an expense) for user `U`, every key under `monthly_summary:{U}:*`
and the key `analytics_summary:{U}` read as absent — whatever the cache held
before — and stay so until some later recompute writes them again. -/
theorem mutation_invalidation_complete (j : AnalyticsJob) (c : SummaryCache)
    (k : String) (hmut : isMutationJob j.jtype = true)
    (hk : keyInMonthlyKeyspace j.userId k = true ∨ k = analyticsSummaryKey j.userId) :
    processAnalyticsJobKV j c k = none := by
  obtain ⟨t, u⟩ := j
  have hinv : invalidateUserSummariesKV u c k = none := by
    rcases hk with hk | hk
    · simp [invalidateUserSummariesKV, hk]
    · unfold invalidateUserSummariesKV
      rcases h : keyInMonthlyKeyspace u k <;> simp [h, hk]
  cases t <;> simp_all [processAnalyticsJobKV, isMutationJob]

/-- **C4, witness.** -/
theorem mutation_invalidation_complete_witness :
    processAnalyticsJobKV ⟨.newExpense, "u1"⟩ (fun _ => some "cached")
        "monthly_summary:u1:2024-05" = none ∧
    processAnalyticsJobKV ⟨.deleteExpense, "u1"⟩ (fun _ => some "cached")
        "analytics_summary:u1" = none :=
  ⟨mutation_invalidation_complete ⟨.newExpense, "u1"⟩ _ _ rfl (.inl (by decide)),
   mutation_invalidation_complete ⟨.deleteExpense, "u1"⟩ _ _ rfl (.inr rfl)⟩

/-- Grouping preserves the total amount: the group totals sum to the sum of
the folded-in amounts. -/
theorem addToGroup_total_sum (acc : List CatAgg) (r : ExpRow) :
    ((addToGroup acc r).map (·.total)).sum = (acc.map (·.total)).sum + r.amount := by
  induction acc with
  | nil => simp [addToGroup]
  | cons g rest ih =>
    unfold addToGroup
    by_cases h : g.category = r.category
    · simp [h]
      ring
    · simp [h, ih]
      ring

theorem foldl_addToGroup_total_sum (rows : List ExpRow) (acc : List CatAgg) :
    ((rows.foldl addToGroup acc).map (·.total)).sum
      = (acc.map (·.total)).sum + (rows.map (·.amount)).sum := by
  induction rows generalizing acc with
  | nil => simp
  | cons r rs ih =>
    simp only [List.foldl_cons, ih, addToGroup_total_sum, List.map_cons, List.sum_cons]
    ring

theorem groupByCategory_total_sum (rows : List ExpRow) :
    ((groupByCategory rows).map (·.total)).sum = (rows.map (·.amount)).sum := by
  simpa [groupByCategory] using foldl_addToGroup_total_sum rows []

theorem foldl_add_total (l : List CatAgg) (a : ℚ) :
    l.foldl (fun acc curr => acc + curr.total) a = a + (l.map (·.total)).sum := by
  induction l generalizing a with
  | nil => simp
  | cons x xs ih =>
    simp [ih]
    ring

theorem sort_total_sum (l : List CatAgg) :
    ((l.insertionSort totPrec).map (·.total)).sum = (l.map (·.total)).sum :=
  ((List.perm_insertionSort totPrec l).map (·.total)).sum_eq

theorem rows_amount_sum_pos {rows : List ExpRow} (hne : rows ≠ [])
    (hpos : ∀ r ∈ rows, 0 < r.amount) : 0 < (rows.map (·.amount)).sum := by
  apply List.sum_pos
  · intro x hx
    obtain ⟨r, hr, rfl⟩ := List.mem_map.mp hx
    exact hpos r hr
  · simpa using hne

/-- **C10.**  In the monthly summary, the analytics summary and the overall
summary, the per-category `percentage = total / totalAmount * 100` is mapped
only over the rows the group-by-category aggregation returned; for a user
with no matching expense rows the total is `0` and the category list is
empty, so no percentage is computed at all; and when every stored amount is
positive, a non-empty category list forces a strictly positive total, so the
divisor of every computed percentage is non-zero. -/
theorem summary_division_safety (month year : String) (rows : List ExpRow) :
    (rows = [] →
        (monthlySummaryCalc month year rows).totalAmount = 0
      ∧ (monthlySummaryCalc month year rows).categories = []
      ∧ (analyticsSummaryCalc rows).totalSpent = 0
      ∧ (analyticsSummaryCalc rows).categoryBreakdown = []
      ∧ (generateOverallSummaryCalc rows).totalSpent = 0
      ∧ (generateOverallSummaryCalc rows).categoryBreakdown = [])
    ∧ ((∀ r ∈ rows, 0 < r.amount) →
        ((monthlySummaryCalc month year rows).categories ≠ [] →
          0 < (monthlySummaryCalc month year rows).totalAmount)
      ∧ ((analyticsSummaryCalc rows).categoryBreakdown ≠ [] →
          0 < (analyticsSummaryCalc rows).totalSpent)
      ∧ ((generateOverallSummaryCalc rows).categoryBreakdown ≠ [] →
          0 < (generateOverallSummaryCalc rows).totalSpent)) := by
  constructor
  · rintro rfl
    refine ⟨?_, rfl, rfl, rfl, rfl, rfl⟩
    simp [monthlySummaryCalc, groupByCategory]
  · intro hpos
    refine ⟨?_, ?_, ?_⟩
    · intro hcat
      have hrne : rows ≠ [] := by
        intro hrows
        subst hrows
        exact hcat (by simp [monthlySummaryCalc, groupByCategory])
      have hsum := rows_amount_sum_pos hrne hpos
      simp only [monthlySummaryCalc, foldl_add_total, sort_total_sum,
        groupByCategory_total_sum, zero_add]
      exact hsum
    · intro hcat
      have hrne : rows ≠ [] := by
        intro hrows
        subst hrows
        exact hcat (by simp [analyticsSummaryCalc, groupByCategory])
      have hsum := rows_amount_sum_pos hrne hpos
      simp only [analyticsSummaryCalc]
      rw [if_neg (by simpa [List.length_eq_zero] using hrne)]
      exact hsum
    · intro hcat
      have hrne : rows ≠ [] := by
        intro hrows
        subst hrows
        exact hcat (by simp [generateOverallSummaryCalc, groupByCategory])
      have hsum := rows_amount_sum_pos hrne hpos
      simp only [generateOverallSummaryCalc]
      rw [if_neg (by simpa [List.length_eq_zero] using hrne)]
      exact hsum

/-- **C10, witness.** -/
theorem summary_division_safety_witness :
    0 < (monthlySummaryCalc "5" "2024" [⟨"food", 12⟩]).totalAmount :=
  ((summary_division_safety "5" "2024" [⟨"food", 12⟩]).2
      (by
        intro r hr
        simp only [List.mem_singleton] at hr
        subst hr
        norm_num)).1
    (by simp [monthlySummaryCalc, groupByCategory, addToGroup, List.insertionSort,
      List.orderedInsert])

theorem overallCalc_eq_specOverallAmended (totals : List ℚ) :
    overallCalc totals = specOverallAmended totals := by
  unfold overallCalc specOverallAmended
  by_cases h2 : 2 ≤ totals.length
  · rw [if_pos h2]
    by_cases hp : 0 < (previousMonths totals).length
    · rw [if_pos hp]
      have hne : previousMonths totals ≠ [] := by
        rw [← List.length_pos_iff_ne_nil]
        exact hp
      by_cases hpa : 0 < avgQ (previousMonths totals)
      · rw [if_pos hpa, if_pos ⟨h2, hne, hpa⟩]
      · rw [if_neg hpa, if_neg (by tauto)]
    · have hnil : previousMonths totals = [] := by
        rw [← List.length_eq_zero]
        omega
      rw [if_neg hp, if_neg (by tauto)]
  · rw [if_neg h2, if_neg (by tauto)]

/-- **C6, counterexample.**  On `rowsC6` the per-month grand totals are
`[0,0,0,50,50,50]`; the per-category comparison (with its
`previousAvg = 0` edge case) classifies that series `increasing`/`100`,
but the overall trend computed by `analyzeSpendingPatterns` is
`stable`/`0` — the overall computation is *not* the same comparison. -/
theorem overall_trend_edge_case_differs :
    (analyzeCore rowsC6).monthlyTotals.map (·.total) = [0, 0, 0, 50, 50, 50] ∧
    (trendStats [0, 0, 0, 50, 50, 50]).trend = Trend.increasing ∧
    (trendStats [0, 0, 0, 50, 50, 50]).percentageChange = 100 ∧
    (analyzeCore rowsC6).overallTrend = Trend.stable ∧
    (analyzeCore rowsC6).overallPercentageChange = 0 := by
  have hm : sortedMonths rowsC6 =
      [⟨2024, 1, [("food", 0)]⟩, ⟨2024, 2, [("food", 0)]⟩, ⟨2024, 3, [("food", 0)]⟩,
       ⟨2024, 4, [("food", 50)]⟩, ⟨2024, 5, [("food", 50)]⟩, ⟨2024, 6, [("food", 50)]⟩] := by
    decide
  have ht : (analyzeCore rowsC6).monthlyTotals.map (·.total) = [0, 0, 0, 50, 50, 50] := by
    show ((totalsByMonthOf rowsC6).map (·.total)) = _
    unfold totalsByMonthOf
    rw [hm]
    norm_num
  have hover : (analyzeCore rowsC6).overallTrend = Trend.stable ∧
      (analyzeCore rowsC6).overallPercentageChange = 0 := by
    have h1 : (analyzeCore rowsC6).overallTrend = (overallCalc [0, 0, 0, 50, 50, 50]).1 := by
      show (overallCalc ((totalsByMonthOf rowsC6).map (·.total))).1 = _
      rw [show ((totalsByMonthOf rowsC6).map (·.total)) = [0, 0, 0, 50, 50, 50] from ht]
    have h2 : (analyzeCore rowsC6).overallPercentageChange
        = (overallCalc [0, 0, 0, 50, 50, 50]).2 := by
      show (overallCalc ((totalsByMonthOf rowsC6).map (·.total))).2 = _
      rw [show ((totalsByMonthOf rowsC6).map (·.total)) = [0, 0, 0, 50, 50, 50] from ht]
    have hcalc : overallCalc [0, 0, 0, 50, 50, 50] = (Trend.stable, 0) := by
      norm_num [overallCalc, recentMonths, previousMonths, avgQ]
    rw [h1, h2, hcalc]
    exact ⟨rfl, rfl⟩
  refine ⟨ht, ?_, ?_, hover.1, hover.2⟩
  · simp only [trendStats, recentMonths, previousMonths]
    norm_num [avgQ]
  · simp only [trendStats, recentMonths, previousMonths]
    norm_num [avgQ]

/-- **C6, amended.**  The overall trend applies the 3-recent-vs-3-previous
comparison to the per-month grand totals only when at least two months are
present, the previous window is non-empty and `previousAvg > 0`; otherwise
— including the `previousAvg = 0`, `recentAvg > 0` case, where the
per-category rule would yield the increasing/100% sentinel — it is `stable`
with `0%`.  It is computed from the grand totals alone, independent of the
per-category classifications. -/
theorem overall_trend_amended (rows : List AggRow) :
    ((analyzeCore rows).overallTrend, (analyzeCore rows).overallPercentageChange)
      = specOverallAmended ((analyzeCore rows).monthlyTotals.map (·.total)) := by
  have h := overallCalc_eq_specOverallAmended
    ((totalsByMonthOf rows).map (fun m => m.total))
  exact h

/-- Inserting an element below every element of a list puts it in front. -/
theorem orderedInsert_cons_of_forall {α : Type} (r : α → α → Prop) [DecidableRel r]
    (x : α) (l : List α) (h : ∀ z ∈ l, r x z) :
    l.orderedInsert r x = x :: l := by
  cases l with
  | nil => rfl
  | cons y ys =>
    unfold List.orderedInsert
    rw [if_pos (h y (List.mem_cons_self y ys))]

/-- The defining equation of `orderedInsert` on a cons cell. -/
theorem orderedInsert_cons_eq {α : Type} (r : α → α → Prop) [DecidableRel r]
    (x y : α) (ys : List α) :
    (y :: ys).orderedInsert r x
      = if r x y then x :: y :: ys else y :: ys.orderedInsert r x :=
  rfl

/-- The defining equation of `insertionSort` on a cons cell. -/
theorem insertionSort_cons_eq {α : Type} (r : α → α → Prop) [DecidableRel r]
    (x : α) (xs : List α) :
    (x :: xs).insertionSort r = (xs.insertionSort r).orderedInsert r x :=
  rfl

/-- On a sorted list, `filter` commutes with `orderedInsert` (stability of
the insertion). -/
theorem filter_orderedInsert {α : Type} (r : α → α → Prop) [DecidableRel r]
    [IsTrans α r] (p : α → Bool) (x : α) :
    ∀ l : List α, l.Sorted r →
      (l.orderedInsert r x).filter p
        = if p x then (l.filter p).orderedInsert r x else l.filter p := by
  intro l
  induction l with
  | nil =>
    intro _
    cases hpx : p x <;> simp [List.orderedInsert, List.filter, hpx]
  | cons y ys ih =>
    intro hs
    rw [List.sorted_cons] at hs
    obtain ⟨hy, hys⟩ := hs
    rw [orderedInsert_cons_eq]
    by_cases hxy : r x y
    · rw [if_pos hxy]
      cases hpx : p x
      · simp [List.filter_cons, hpx]
      · have hall : ∀ z ∈ (y :: ys).filter p, r x z := by
          intro z hz
          have hz' := List.mem_of_mem_filter hz
          rcases List.mem_cons.mp hz' with rfl | hz2
          · exact hxy
          · exact IsTrans.trans x y z hxy (hy z hz2)
        rw [orderedInsert_cons_of_forall r x _ hall]
        simp [List.filter_cons, hpx]
    · rw [if_neg hxy]
      cases hpy : p y
      · simp only [List.filter_cons, hpy, Bool.false_eq_true, if_false]
        exact ih hys
      · simp only [List.filter_cons, hpy, if_true]
        rw [ih hys]
        cases hpx : p x
        · simp
        · rw [if_pos rfl, if_pos rfl, orderedInsert_cons_eq, if_neg hxy]

/-- `filter` commutes with the stable insertion sort. -/
theorem filter_insertionSort {α : Type} (r : α → α → Prop) [DecidableRel r]
    [IsTrans α r] [IsTotal α r] (p : α → Bool) (l : List α) :
    (l.insertionSort r).filter p = (l.filter p).insertionSort r := by
  induction l with
  | nil => rfl
  | cons x xs ih =>
    rw [insertionSort_cons_eq]
    rw [filter_orderedInsert r p x _ (List.sorted_insertionSort r xs), ih]
    cases hpx : p x
    · simp [List.filter_cons, hpx]
    · simp [List.filter_cons, hpx, insertionSort_cons_eq]

/-- Filtering for one definite trend value already excludes
`insufficient data`, so the pre-filter of `sortedByChange` is redundant. -/
theorem filter_trend_of_ne (v : Trend) (hv : v ≠ Trend.insufficientData)
    (l : List CatTrend) :
    ((l.filter fun t => decide (t.trend ≠ Trend.insufficientData)).filter
        fun t => decide (t.trend = v))
      = l.filter fun t => decide (t.trend = v) := by
  induction l with
  | nil => rfl
  | cons t ts ih =>
    rw [List.filter_cons]
    by_cases h2 : t.trend = Trend.insufficientData
    · rw [if_neg (by simp [h2])]
      have hnv : ¬ t.trend = v := by
        rw [h2]
        exact fun hh => hv hh.symm
      rw [List.filter_cons, if_neg (by simp [hnv])]
      exact ih
    · rw [if_pos (by simp [h2]), List.filter_cons, List.filter_cons]
      by_cases h : t.trend = v
      · rw [if_pos (by simp [h]), if_pos (by simp [h]), ih]
      · rw [if_neg (by simp [h]), if_neg (by simp [h])]
        exact ih

/-- **C7, amended.**  The insights of `analyzeSpendingPatterns` are, in
order: one entry for the overall trend; then one entry per category among
the top-3 increasing categories ranked by `percentageChange` descending;
then one entry per category among the top-3 decreasing categories ranked by
`percentageChange` **descending** as well (i.e. the mildest declines first —
the single descending sort of `sortedByChange` is shared by both blocks),
with ties broken by the categories' first-appearance order in the data, not
by category name. -/
theorem insights_order_amended (rows : List AggRow) :
    (analyzeCore rows).insights = amendedInsightsSpec rows := by
  show insightsOf rows = amendedInsightsSpec rows
  unfold insightsOf amendedInsightsSpec increasingCategoriesOf decreasingCategoriesOf
    sortedByChangeOf
  rw [filter_insertionSort pcPrec _, filter_insertionSort pcPrec _,
    filter_trend_of_ne Trend.increasing (by simp),
    filter_trend_of_ne Trend.decreasing (by simp)]

theorem catTrendsOf_rowsC7 : catTrendsOf rowsC7 = [ctFoodC7, ctDebtC7] := by
  have hm : sortedMonths rowsC7 = monthsC7 := by decide
  have hcats : collectCats monthsC7 = ["food", "debt"] := by decide
  have hdf : catAmounts monthsC7 "food" = dataFoodC7 := by decide
  have hdd : catAmounts monthsC7 "debt" = dataDebtC7 := by decide
  have htsF : trendStats [100, 100, 100, 80, 80, 80] = ⟨.decreasing, -20, 90⟩ := by
    simp only [trendStats, recentMonths, previousMonths]
    norm_num [avgQ]
  have htsD : trendStats [100, 100, 100, 50, 50, 50] = ⟨.decreasing, -50, 75⟩ := by
    simp only [trendStats, recentMonths, previousMonths]
    norm_num [avgQ]
  have hctF : computeCatTrend monthsC7 "food" = ctFoodC7 := by
    simp only [computeCatTrend]
    rw [hdf, show List.map (fun x => x.amount) dataFoodC7
        = [(100 : ℚ), 100, 100, 80, 80, 80] from rfl, htsF]
    rfl
  have hctD : computeCatTrend monthsC7 "debt" = ctDebtC7 := by
    simp only [computeCatTrend]
    rw [hdd, show List.map (fun x => x.amount) dataDebtC7
        = [(100 : ℚ), 100, 100, 50, 50, 50] from rfl, htsD]
    rfl
  unfold catTrendsOf
  rw [hm, hcats]
  simp only [List.map_cons, List.map_nil]
  rw [hctF, hctD]

theorem totalsC7 : (totalsByMonthOf rowsC7).map (fun m => m.total)
    = [200, 200, 200, 130, 130, 130] := by
  have hm : sortedMonths rowsC7 = monthsC7 := by decide
  unfold totalsByMonthOf
  rw [hm]
  norm_num [monthsC7]

/-- **C7, counterexample.**  On `rowsC7` the code emits the two decreasing
insights in *descending* `percentageChange` order (food −20% before debt
−50%), while the claim's ordering (ascending) would put debt −50% first:
the insights list differs from the claim's list. -/
theorem insights_order_claim_counterexample :
    (analyzeCore rowsC7).insights
        = [⟨.overall, none, -35⟩, ⟨.decreasing, some "food", -20⟩,
           ⟨.decreasing, some "debt", -50⟩] ∧
    claimInsightsSpec rowsC7
        = [⟨.overall, none, -35⟩, ⟨.decreasing, some "debt", -50⟩,
           ⟨.decreasing, some "food", -20⟩] ∧
    (analyzeCore rowsC7).insights ≠ claimInsightsSpec rowsC7 := by
  have hoc : overallCalc [200, 200, 200, 130, 130, 130] = (Trend.decreasing, -35) := by
    norm_num [overallCalc, recentMonths, previousMonths, avgQ]
  have hfilne : ([ctFoodC7, ctDebtC7].filter fun t =>
      decide (t.trend ≠ Trend.insufficientData)) = [ctFoodC7, ctDebtC7] := by decide
  have hfilinc : ([ctFoodC7, ctDebtC7].filter fun t =>
      decide (t.trend = Trend.increasing)) = [] := by decide
  have hfildec : ([ctFoodC7, ctDebtC7].filter fun t =>
      decide (t.trend = Trend.decreasing)) = [ctFoodC7, ctDebtC7] := by decide
  have hsortCode : ([ctFoodC7, ctDebtC7] : List CatTrend).insertionSort pcPrec
      = [ctFoodC7, ctDebtC7] := by
    rw [insertionSort_cons_eq, insertionSort_cons_eq,
      show ([] : List CatTrend).insertionSort pcPrec = [] from rfl,
      show ([] : List CatTrend).orderedInsert pcPrec ctDebtC7 = [ctDebtC7] from rfl,
      orderedInsert_cons_eq, if_pos (by norm_num [pcPrec, ctFoodC7, ctDebtC7])]
  have hsortClaim : ([ctFoodC7, ctDebtC7] : List CatTrend).insertionSort decClaimPrec
      = [ctDebtC7, ctFoodC7] := by
    rw [insertionSort_cons_eq, insertionSort_cons_eq,
      show ([] : List CatTrend).insertionSort decClaimPrec = [] from rfl,
      show ([] : List CatTrend).orderedInsert decClaimPrec ctDebtC7 = [ctDebtC7] from rfl,
      orderedInsert_cons_eq, if_neg (by norm_num [decClaimPrec, ctFoodC7, ctDebtC7])]
    rfl
  have hins : (analyzeCore rowsC7).insights
      = [⟨.overall, none, -35⟩, ⟨.decreasing, some "food", -20⟩,
         ⟨.decreasing, some "debt", -50⟩] := by
    show insightsOf rowsC7 = _
    unfold insightsOf increasingCategoriesOf decreasingCategoriesOf sortedByChangeOf overallOf
    rw [catTrendsOf_rowsC7, totalsC7, hoc, hfilne, hsortCode, hfilinc, hfildec]
    simp [ctFoodC7, ctDebtC7]
  have hclaim : claimInsightsSpec rowsC7
      = [⟨.overall, none, -35⟩, ⟨.decreasing, some "debt", -50⟩,
         ⟨.decreasing, some "food", -20⟩] := by
    unfold claimInsightsSpec overallOf
    rw [catTrendsOf_rowsC7, totalsC7, hoc, hfilinc, hfildec, hsortClaim]
    simp [ctFoodC7, ctDebtC7]
  refine ⟨hins, hclaim, ?_⟩
  rw [hins, hclaim]
  decide

end ExpenseTracker
